import Mathlib

/-!
Verification development for the pidcat_rust streaming log reformatter
(`src/bin/main.rs` and the `src/model` types).

The program text is shallowly embedded: each Rust function used by the
claims is translated into an executable Lean definition over `List Char`
(named `Str` below).  Rust `usize` arithmetic is modelled by `Nat` with
explicit checked subtraction where a debug-mode underflow panic is
possible, fallible operations (panics) are modelled by `Option`, and the
fixed regular expressions of the source are translated into deterministic
parser functions whose doc comments quote the original pattern.
-/

namespace Pidcat

/-- Lines and rendered text are lists of characters (the visible/`char`
view of Rust `String`s; byte-level questions use `Char.utf8Size`). -/
abbrev Str := List Char

/-- Byte length of a string, as Rust `str::len` (UTF-8 byte count). -/
def utf8Len (s : Str) : Nat := (s.map Char.utf8Size).sum

/-- `startsWithL l p` is true when `p` is a prefix of `l`
(Rust `str::starts_with`). -/
def startsWithL : Str → Str → Bool
  | _, [] => true
  | [], _ :: _ => false
  | c :: cs, p :: ps => c = p && startsWithL cs ps

/-- `containsSeq l sub` is true when `sub` occurs contiguously in `l`
(Rust `str::contains` with a literal pattern). -/
def containsSeq : Str → Str → Bool
  | l, sub =>
    match l with
    | [] => sub.isEmpty
    | _ :: cs => startsWithL l sub || containsSeq cs sub

/-- Rust `char::is_whitespace` restricted to the ASCII whitespace that the
log pipeline encounters (space, tab, CR, LF); `Char.isWhitespace` in Lean
covers exactly these. -/
def isWs (c : Char) : Bool := c.isWhitespace

/-- Rust `str::trim_start`. -/
def trimStart (s : Str) : Str := s.dropWhile isWs

/-- Rust `str::trim` (strip leading and trailing whitespace). -/
def trim (s : Str) : Str := (((s.dropWhile isWs).reverse).dropWhile isWs).reverse

/-- `n` spaces. -/
def spacesN (n : Nat) : Str := List.replicate n ' '

/-- Checked `usize` subtraction: Rust debug builds panic on underflow, so
`a - b` in the source is modelled as `none` when `b > a`. -/
def checkedSub (a b : Nat) : Option Nat := if b ≤ a then some (a - b) else none

/-- Rust `String::truncate s n`: no-op when `n ≥ s.len()` (bytes), keeps
the first `n` bytes when `n` falls on a character boundary, and panics
(`none`) when `n` falls inside a multi-byte character. -/
def truncBytes (s : Str) (n : Nat) : Option Str :=
  if utf8Len s ≤ n then some s else truncGo s n
where
  truncGo : Str → Nat → Option Str
    | _, 0 => some []
    | [], _ => some []
    | c :: cs, n =>
      if c.utf8Size ≤ n then (truncGo cs (n - c.utf8Size)).map (c :: ·)
      else none

/-- `format!("{:width$}", s)`: left-aligned, padded on the right with
spaces to `width` characters. -/
def padRight (s : Str) (width : Nat) : Str := s ++ spacesN (width - s.length)

/-- `format!("{:>width$}", s)`: right-aligned, padded on the left. -/
def padLeft (s : Str) (width : Nat) : Str := spacesN (width - s.length) ++ s

/-- Cast of an `i16` console width to `usize`
(`width as usize`; two's-complement, so `-5` becomes `2^64 - 5`). -/
def usizeOfI16 (w : Int) : Nat := (w % (2 ^ 64 : Int)).toNat

/-! ## Colors (the `colored` crate's `Color` and its SGR rendering) -/

/-- The `colored::Color` variants used by the program. -/
inductive Color where
  | Black | Red | Green | Yellow | Blue | Magenta | Cyan | White
  | BrightBlack | BrightRed | BrightGreen | BrightYellow
  | BrightBlue | BrightMagenta | BrightCyan | BrightWhite
  | TrueColor (r g b : Nat)
  deriving DecidableEq, Repr

/-- Decimal digits of a number (for true-color SGR parameters). -/
def natDigits (n : Nat) : Str := Nat.toDigits 10 n

/-- SGR foreground parameter of a color (`colored`'s `to_fg_str`). -/
def fgCode : Color → Str
  | .Black => ['3', '0']
  | .Red => ['3', '1']
  | .Green => ['3', '2']
  | .Yellow => ['3', '3']
  | .Blue => ['3', '4']
  | .Magenta => ['3', '5']
  | .Cyan => ['3', '6']
  | .White => ['3', '7']
  | .BrightBlack => ['9', '0']
  | .BrightRed => ['9', '1']
  | .BrightGreen => ['9', '2']
  | .BrightYellow => ['9', '3']
  | .BrightBlue => ['9', '4']
  | .BrightMagenta => ['9', '5']
  | .BrightCyan => ['9', '6']
  | .BrightWhite => ['9', '7']
  | .TrueColor r g b =>
    ['3', '8', ';', '2', ';'] ++ natDigits r ++ [';'] ++ natDigits g ++ [';'] ++ natDigits b

/-- SGR background parameter of a color (`colored`'s `to_bg_str`). -/
def bgCode : Color → Str
  | .Black => ['4', '0']
  | .Red => ['4', '1']
  | .Green => ['4', '2']
  | .Yellow => ['4', '3']
  | .Blue => ['4', '4']
  | .Magenta => ['4', '5']
  | .Cyan => ['4', '6']
  | .White => ['4', '7']
  | .BrightBlack => ['1', '0', '0']
  | .BrightRed => ['1', '0', '1']
  | .BrightGreen => ['1', '0', '2']
  | .BrightYellow => ['1', '0', '3']
  | .BrightBlue => ['1', '0', '4']
  | .BrightMagenta => ['1', '0', '5']
  | .BrightCyan => ['1', '0', '6']
  | .BrightWhite => ['1', '0', '7']
  | .TrueColor r g b =>
    ['4', '8', ';', '2', ';'] ++ natDigits r ++ [';'] ++ natDigits g ++ [';'] ++ natDigits b

/-- The SGR reset sequence `"\x1b[0m"`. -/
def resetCode : Str := ['\x1b', '[', '0', 'm']

/-- `text.color(c)` of the `colored` crate:
`"\x1b[<fg>m" ++ text ++ "\x1b[0m"`. -/
def colorizeFg (c : Color) (s : Str) : Str :=
  ['\x1b', '['] ++ fgCode c ++ ['m'] ++ s ++ resetCode

/-- `text.color(f).on_color(b)`:
`"\x1b[<fg>;<bg>m" ++ text ++ "\x1b[0m"`. -/
def colorizeFgBg (f b : Color) (s : Str) : Str :=
  ['\x1b', '['] ++ fgCode f ++ [';'] ++ bgCode b ++ ['m'] ++ s ++ resetCode

/-! ## ANSI stripping and segments

`strip_ansi_escapes::strip` is modelled with the same escape-sequence
discipline the program itself uses in `get_ansi_segments`: an escape
sequence is `ESC '['` followed by everything up to and including the
first ASCII-alphabetic character. -/

/-- The scanning core of the stripper: the flag records whether the scan
is currently inside a `ESC '['` sequence (which ends at the first
ASCII-alphabetic character). -/
def stripRun : Bool → Str → Str
  | true, [] => []
  | true, c :: cs => if c.isAlpha then stripRun false cs else stripRun true cs
  | false, [] => []
  | false, '\x1b' :: '[' :: rest => stripRun true rest
  | false, c :: cs => c :: stripRun false cs

/-- Model of `strip_ansi_escapes::strip` (composed with the lossless
UTF-8 read-back the program performs): remove every `ESC '['`-introduced
sequence, keep all other characters. -/
def stripAnsi (l : Str) : Str := stripRun false l

/-- `message.replace('\t', "    ")`. -/
def tabExpand (s : Str) : Str :=
  s.flatMap fun c => if c = '\t' then [' ', ' ', ' ', ' '] else [c]

/-- `pidcat::AnsiSegment`: an escape sequence and the count of visible
characters preceding it. -/
structure AnsiSegment where
  visiblePos : Nat
  code : Str
  deriving DecidableEq, Repr

/-- Split a CSI parameter part: the characters up to and including the
first ASCII-alphabetic one, and the remainder (the loop body of
`get_ansi_segments`). -/
def takeCode : Str → Str × Str
  | [] => ([], [])
  | c :: cs =>
    if c.isAlpha then ([c], cs)
    else
      let p := takeCode cs
      (c :: p.1, p.2)

theorem takeCode_length_le : ∀ l : Str, (takeCode l).2.length ≤ l.length := by
  intro l
  induction l with
  | nil => simp [takeCode]
  | cons c cs ih =>
    simp only [takeCode]
    split
    · simp
    · exact Nat.le_trans ih (Nat.le_succ _)

/-- The scanning loop of `get_ansi_segments`, bounded by a fuel that the
caller sets to the input length plus one (adequate, since every
iteration consumes at least one character). -/
def segGo : Nat → Nat → Str → List AnsiSegment
  | 0, _, _ => []
  | _ + 1, _, [] => []
  | fuel + 1, vis, '\x1b' :: '[' :: rest =>
    let p := takeCode rest
    ⟨vis, '\x1b' :: '[' :: p.1⟩ :: segGo fuel vis p.2
  | fuel + 1, vis, _ :: rest => segGo fuel (vis + 1) rest

/-- `get_ansi_segments`: collect every `ESC '['` sequence together with
its visible insertion offset. -/
def getAnsiSegments (s : Str) : List AnsiSegment := segGo (s.length + 1) 0 s

/-- `get_active_codes_at_pos`: scan segments strictly before `pos`,
clearing the active list on any code containing `"0m"` and accumulating
the others. -/
def getActiveCodesAtPos (segs : List AnsiSegment) (pos : Nat) : List Str :=
  activeGo segs []
where
  activeGo : List AnsiSegment → List Str → List Str
    | [], acc => acc
    | s :: t, acc =>
      if pos ≤ s.visiblePos then acc
      else if containsSeq s.code ['0', 'm'] then activeGo t []
      else activeGo t (acc ++ [s.code])

/-- The inner while loop of `insert_ansi_codes_in_range`: emit the codes
of leading segments whose position equals `absolutePos` (skipping stale
ones), stopping at `endPos` or at a later position; returns the emitted
text and the remaining segments. -/
def emitSegsAt (absolutePos endPos : Nat) : List AnsiSegment → Str × List AnsiSegment
  | [] => ([], [])
  | s :: t =>
    if endPos ≤ s.visiblePos then ([], s :: t)
    else if s.visiblePos = absolutePos then
      let p := emitSegsAt absolutePos endPos t
      (s.code ++ p.1, p.2)
    else if absolutePos < s.visiblePos then ([], s :: t)
    else emitSegsAt absolutePos endPos t

/-- The character loop of `insert_ansi_codes_in_range`. -/
def insertGo (endPos : Nat) : Str → Nat → List AnsiSegment → Str
  | [], _, _ => []
  | c :: cs, absolutePos, segs =>
    let p := emitSegsAt absolutePos endPos segs
    p.1 ++ [c] ++ insertGo endPos cs (absolutePos + 1) p.2

/-- `insert_ansi_codes_in_range`: prefix the active codes, then re-insert
each segment whose visible position falls in `[startPos, endPos)` at its
offset inside `plainText`. -/
def insertAnsiCodesInRange (plainText : Str) (segs : List AnsiSegment)
    (startPos endPos : Nat) (activeCodes : List Str) : Str :=
  activeCodes.flatMap id ++
    insertGo endPos plainText startPos (segs.dropWhile (·.visiblePos < startPos))

/-- The chunking loop of `get_wrapped_indent` (`while current < chars.len()`),
bounded by a fuel that the caller sets to the character count plus one
(adequate: the loop is entered only with a positive wrap width, so every
iteration advances `current` by at least one). -/
def wrapChunks (chars : Str) (segs : List AnsiSegment) (wrapWidth : Nat)
    (showColors : Bool) (headerWidth : Nat) (fg bg : Color) :
    Nat → Nat → Str
  | 0, _ => []
  | fuel + 1, current =>
    if current < chars.length then
      let nextIndex := min (current + wrapWidth) chars.length
      let segment := (chars.drop current).take (nextIndex - current)
      let activeCodes := if 0 < current then getActiveCodesAtPos segs current else []
      let coloredSegment := insertAnsiCodesInRange segment segs current nextIndex activeCodes
      if nextIndex < chars.length then
        let indentLen := headerWidth - 5
        let spaces :=
          if fg = bg then colorizeFgBg fg bg (spacesN indentLen) else spacesN indentLen
        let futureIndex := nextIndex + wrapWidth
        let isLastLine := chars.length ≤ futureIndex
        let connector : Str :=
          if fg = bg then [' ', ' ', ' ', ' ']
          else if ¬isLastLine then [' ', '╠', '═']
          else [' ', '╚', '═']
        let coloredConnector := colorizeFgBg fg bg connector
        coloredSegment ++ resetCode ++ ['\n'] ++ spaces ++
          (if showColors then coloredConnector else connector) ++ [' '] ++
          wrapChunks chars segs wrapWidth showColors headerWidth fg bg fuel nextIndex
      else
        coloredSegment ++ resetCode
    else []

/-- `get_wrapped_indent`: the ANSI-aware wrapper.  Width `-1` is the
"unbounded" sentinel; otherwise tabs are expanded, the wrap budget is
`width as usize` minus the header width (saturating), and the text is
returned unchanged when the budget is zero or the stripped text fits. -/
def getWrappedIndent (message : Str) (showColors : Bool) (width : Int)
    (headerWidth : Nat) (levelForeground levelBackground : Color) : Str :=
  if width = -1 then message
  else
    let message := tabExpand message
    let wrapWidth := usizeOfI16 width - headerWidth
    if wrapWidth = 0 then message
    else
      let plainMessage := stripAnsi message
      if plainMessage.length ≤ wrapWidth then message
      else
        wrapChunks plainMessage (getAnsiSegments message) wrapWidth
          showColors headerWidth levelForeground levelBackground
          (plainMessage.length + 1) 0

/-! ## Log levels (`src/model/log_level.rs`) -/

/-- `pidcat::LogLevel`. -/
inductive LogLevel where
  | VERBOSE | DEBUG | INFO | WARN | ERROR | FATAL
  deriving DecidableEq, Repr

/-- The discriminant values of the Rust enum (used by its `Ord`). -/
def LogLevel.toNat : LogLevel → Nat
  | .VERBOSE => 0
  | .DEBUG => 1
  | .INFO => 2
  | .WARN => 3
  | .ERROR => 4
  | .FATAL => 5

/-- `level < state.log_level` via the derived `Ord`. -/
def levelLt (a b : LogLevel) : Bool := a.toNat < b.toNat

/-- `impl From<&str> for LogLevel`: the source panics on any string other
than the six level letters, modelled as `none`. -/
def logLevelFromStr : Str → Option LogLevel
  | ['V'] => some .VERBOSE
  | ['D'] => some .DEBUG
  | ['I'] => some .INFO
  | ['W'] => some .WARN
  | ['E'] => some .ERROR
  | ['F'] => some .FATAL
  | _ => none

/-- `Display for LogLevel`: the single level letter. -/
def LogLevel.letter : LogLevel → Char
  | .VERBOSE => 'V'
  | .DEBUG => 'D'
  | .INFO => 'I'
  | .WARN => 'W'
  | .ERROR => 'E'
  | .FATAL => 'F'

/-- The per-level badge background chosen in `write_log_line`. -/
def levelBackground : LogLevel → Color
  | .DEBUG => .BrightBlue
  | .INFO => .BrightGreen
  | .WARN => .BrightYellow
  | .ERROR => .TrueColor 255 100 0
  | .FATAL => .BrightRed
  | .VERBOSE => .BrightCyan

/-! ## HashMaps as association lists

`HashMap<String, _>` is modelled by an association list whose observable
behaviour (lookup, insert-with-overwrite, remove, key set) matches the
Rust map; iteration order is never observed by the program logic. -/

/-- `HashMap::get`. -/
def lookupA {α : Type} : List (Str × α) → Str → Option α
  | [], _ => none
  | (k, v) :: t, key => if k = key then some v else lookupA t key

/-- Remove every binding of a key (`HashMap::remove`). -/
def eraseA {α : Type} (key : Str) (m : List (Str × α)) : List (Str × α) :=
  m.filter fun p => p.1 ≠ key

/-- `HashMap::insert` (overwrite). -/
def insertA {α : Type} (key : Str) (v : α) (m : List (Str × α)) : List (Str × α) :=
  (key, v) :: eraseA key m

/-- `HashMap::contains_key`. -/
def containsA {α : Type} (m : List (Str × α)) (key : Str) : Bool :=
  (lookupA m key).isSome

/-- `map.keys().cloned().collect()`. -/
def keysA {α : Type} (m : List (Str × α)) : List Str := m.map (·.1)

/-! ## Session state (`src/model/state.rs`) -/

/-- `pidcat::State`. -/
structure State where
  pids_map : List (Str × Str)
  last_tag : Option Str
  app_pid : Option Str
  log_level : LogLevel
  named_processes : List Str
  catchall_package : List Str
  token_colors : List Color
  known_tokens : List (Str × Color)
  deriving DecidableEq, Repr

/-- First index of a color in the palette
(`token_colors.iter().position(|&col| col == color)`). -/
def firstIdx (l : List Color) (c : Color) : Option Nat :=
  match l with
  | [] => none
  | x :: t => if x = c then some 0 else (firstIdx t c).map (· + 1)

/-- `get_token_color` (`main.rs:414`).  Phase 1: a fresh token takes
`token_colors[0]` into the memo when the palette is nonempty, or returns
`White` immediately when it is empty (`rotate_left(0)` in the source is a
no-op and is not modelled).  Phase 2: the memoised color is looked up,
removed from its palette position when present, and pushed to the back
unconditionally. -/
def getTokenColor (token : Str) (st0 : State) : Color × State :=
  let phase1 : Option State :=
    if (lookupA st0.known_tokens token).isNone then
      if st0.token_colors ≠ [] then
        some { st0 with
          known_tokens :=
            insertA token (st0.token_colors.headD .White) st0.known_tokens }
      else none
    else some st0
  match phase1 with
  | none => (.White, st0)
  | some st =>
    let color := (lookupA st.known_tokens token).getD .White
    let tc :=
      match firstIdx st.token_colors color with
      | some pos => st.token_colors.eraseIdx pos
      | none => st.token_colors
    (color, { st with token_colors := tc ++ [color] })

/-! ## The fixed recognition patterns

Each `Lazy<Regex>` of `main.rs` is translated into a parsing function.
The patterns are anchored and, at every quantifier, either the following
literal cannot occur inside the repeated character class (so maximal
munch is exactly the backtracking semantics) or the translation
enumerates the candidate splits in the regex engine's preference order.
`.` never matches a newline; negated classes such as `[^:]` do. -/

/-- `str::strip_prefix`-like helper. -/
def stripPrefixL (s p : Str) : Option Str :=
  if startsWithL s p then some (s.drop p.length) else none

/-- The character class `[a-zA-Z0-9._:]` of the process-name captures. -/
def isPkgChar (c : Char) : Bool := c.isAlphanum || c = '.' || c = '_' || c = ':'

/-- The character class `[a-z0-9]`. -/
def isLowerDigit (c : Char) : Bool := c.isLower || c.isDigit

/-- `NATIVE_TAGS_LINE = ".*nativeGetEnabledTags.*"` as an `is_match`
test: the line contains the literal. -/
def nativeTagsMatch (line : Str) : Bool :=
  containsSeq line (("nativeGetEnabledTags").data)

/-- `LOG_LINE = "^([A-Z])/(.+?)\( *(\d+)\): (.*?)$"`, tail after the tag:
`\( *(\d+)\): ` followed by the message (which `.` keeps newline-free). -/
def afterTagParse : Str → Option (Str × Str)
  | '(' :: r =>
    let r1 := r.dropWhile (· = ' ')
    let digits := r1.takeWhile Char.isDigit
    if digits.isEmpty then none
    else
      match r1.drop digits.length with
      | ')' :: ':' :: ' ' :: msg => if msg.contains '\n' then none else some (digits, msg)
      | _ => none
  | _ => none

/-- The non-greedy `(.+?)` tag of `LOG_LINE`: grow the tag one character
at a time (shortest first, the lazy order) until the remainder parses. -/
def scanLogTag (revTag : Str) : Str → Option (Str × Str × Str)
  | [] => none
  | c :: rest =>
    if c = '\n' then none
    else
      match afterTagParse rest with
      | some (pid, msg) => some ((c :: revTag).reverse, pid, msg)
      | none => scanLogTag (c :: revTag) rest

/-- `LOG_LINE.captures`: `(level letter, tag, pid, message)`. -/
def logLineCaptures : Str → Option (Char × Str × Str × Str)
  | c :: '/' :: rest =>
    if 'A' ≤ c ∧ c ≤ 'Z' then (scanLogTag [] rest).map (fun t => (c, t)) else none
  | _ => none

/-- `PID_KILL = "^Killing (\d+):([a-zA-Z0-9._:]+)/[^:]+: (.*)$"`,
applied to the message; returns `(pid, package)`. -/
def pidKillCaptures (msg : Str) : Option (Str × Str) :=
  match stripPrefixL msg (("Killing ").data) with
  | none => none
  | some r =>
    let pid := r.takeWhile Char.isDigit
    if pid.isEmpty then none
    else
      match r.drop pid.length with
      | ':' :: r2 =>
        let pkg := r2.takeWhile isPkgChar
        if pkg.isEmpty then none
        else
          match r2.drop pkg.length with
          | '/' :: r3 =>
            let nc := r3.takeWhile (· ≠ ':')
            if nc.isEmpty then none
            else
              match r3.drop nc.length with
              | ':' :: ' ' :: rest =>
                if rest.contains '\n' then none else some (pid, pkg)
              | _ => none
          | _ => none
      | _ => none

/-- `PID_LEAVE = "^No longer want ([a-zA-Z0-9._:]+) \(pid (\d+)\): .*$"`;
returns `(package, pid)`. -/
def pidLeaveCaptures (msg : Str) : Option (Str × Str) :=
  match stripPrefixL msg (("No longer want ").data) with
  | none => none
  | some r =>
    let pkg := r.takeWhile isPkgChar
    if pkg.isEmpty then none
    else
      match stripPrefixL (r.drop pkg.length) ((" (pid ").data) with
      | none => none
      | some r2 =>
        let pid := r2.takeWhile Char.isDigit
        if pid.isEmpty then none
        else
          match r2.drop pid.length with
          | ')' :: ':' :: ' ' :: rest =>
            if rest.contains '\n' then none else some (pkg, pid)
          | _ => none

/-- `PID_DEATH = "^Process ([a-zA-Z0-9._:]+) \(pid (\d+)\) has died.?$"`;
returns `(package, pid)`. -/
def pidDeathCaptures (msg : Str) : Option (Str × Str) :=
  match stripPrefixL msg (("Process ").data) with
  | none => none
  | some r =>
    let pkg := r.takeWhile isPkgChar
    if pkg.isEmpty then none
    else
      match stripPrefixL (r.drop pkg.length) ((" (pid ").data) with
      | none => none
      | some r2 =>
        let pid := r2.takeWhile Char.isDigit
        if pid.isEmpty then none
        else
          match stripPrefixL (r2.drop pid.length) ((") has died").data) with
          | none => none
          | some rest =>
            match rest with
            | [] => some (pkg, pid)
            | [c] => if c = '\n' then none else some (pkg, pid)
            | _ => none

/-- Splits for a leading greedy `^.*<sep>`: the remainders after each
occurrence of `sep` whose preceding prefix is newline-free (`.` cannot
cross a newline), ordered longest-prefix-first (the greedy order). -/
def startSplits (sep : Str) (l : Str) : List Str := (splitsGo sep l).reverse
where
  splitsGo (sep : Str) : Str → List Str
    | [] => []
    | c :: t =>
      let here := if startsWithL (c :: t) sep then [(c :: t).drop sep.length] else []
      here ++ (if c = '\n' then [] else splitsGo sep t)

/-- The terminal `(.*?)\}$` of `PID_START`: the remainder must end in
`'}'` and the capture before it must be newline-free. -/
def endBrace (r : Str) : Option Str :=
  match r.reverse with
  | '}' :: revBody =>
    let body := revBody.reverse
    if body.contains '\n' then none else some body
  | _ => none

/-- The scanning loop of the lazy `.*? \{(.*?)\}$` of `PID_START`: find
the earliest `" {"` (with a newline-free prefix) whose remainder ends the
line in `'}'`; on failure the scan resumes one character later.  The
fuel is set by the caller to the input length plus one, which every
one-character advance respects. -/
def braceSearchF : Nat → Str → Option Str
  | 0, _ => none
  | _ + 1, [] => none
  | fuel + 1, ' ' :: '{' :: rest =>
    (match endBrace rest with
     | some cap => some cap
     | none => braceSearchF fuel ('{' :: rest))
  | fuel + 1, c :: rest => if c = '\n' then none else braceSearchF fuel rest

/-- The lazy `.*? \{(.*?)\}$` of `PID_START`. -/
def braceSearch (l : Str) : Option Str := braceSearchF (l.length + 1) l

/-- Tail of `PID_START` after `": Start proc "`:
`(\d+):([a-zA-Z0-9._:]+)/[a-z0-9]+ for .*? \{(.*?)\}$`;
returns `(pid, package, target)`. -/
def pidStartTail (r : Str) : Option (Str × Str × Str) :=
  let pid := r.takeWhile Char.isDigit
  if pid.isEmpty then none
  else
    match r.drop pid.length with
    | ':' :: r2 =>
      let pkg := r2.takeWhile isPkgChar
      if pkg.isEmpty then none
      else
        match r2.drop pkg.length with
        | '/' :: r3 =>
          let lc := r3.takeWhile isLowerDigit
          if lc.isEmpty then none
          else
            match stripPrefixL (r3.drop lc.length) ((" for ").data) with
            | none => none
            | some rem => (braceSearch rem).map fun target => (pid, pkg, target)
        | _ => none
    | _ => none

/-- Tail of `PID_START_UGID` after `": Start proc "`:
`([a-zA-Z0-9._:]+) for ([a-z]+ [^:]+): pid=(\d+) uid=(\d+) gids=(.*)$`;
returns `(pid, uid, gids, package, target)`. -/
def pidStartUgidTail (r : Str) : Option (Str × Str × Str × Str × Str) :=
  let pkg := r.takeWhile isPkgChar
  if pkg.isEmpty then none
  else
    match stripPrefixL (r.drop pkg.length) ((" for ").data) with
    | none => none
    | some r2 =>
      let lc := r2.takeWhile Char.isLower
      if lc.isEmpty then none
      else
        match r2.drop lc.length with
        | ' ' :: r3 =>
          let nc := r3.takeWhile (· ≠ ':')
          if nc.isEmpty then none
          else
            match stripPrefixL (r3.drop nc.length) ((": pid=").data) with
            | none => none
            | some r4 =>
              let pid := r4.takeWhile Char.isDigit
              if pid.isEmpty then none
              else
                match stripPrefixL (r4.drop pid.length) ((" uid=").data) with
                | none => none
                | some r5 =>
                  let uid := r5.takeWhile Char.isDigit
                  if uid.isEmpty then none
                  else
                    match stripPrefixL (r5.drop uid.length) ((" gids=").data) with
                    | none => none
                    | some gids =>
                      if gids.contains '\n' then none
                      else some (pid, uid, gids, pkg, lc ++ [' '] ++ nc)
        | _ => none

/-- `PID_START_DALVIK =
"^E/dalvikvm\(\s*(\d+)\): >>>>> ([a-zA-Z0-9._:]+) \[ userId:0 \| appId:(\d+) \]$"`;
returns `(pid, package, appId)`. -/
def pidStartDalvikCaptures (line : Str) : Option (Str × Str × Str) :=
  match stripPrefixL line (("E/dalvikvm(").data) with
  | none => none
  | some r =>
    let r1 := r.dropWhile isWs
    let pid := r1.takeWhile Char.isDigit
    if pid.isEmpty then none
    else
      match stripPrefixL (r1.drop pid.length) (("): >>>>> ").data) with
      | none => none
      | some r2 =>
        let pkg := r2.takeWhile isPkgChar
        if pkg.isEmpty then none
        else
          match stripPrefixL (r2.drop pkg.length) ((" [ userId:0 | appId:").data) with
          | none => none
          | some r3 =>
            let appId := r3.takeWhile Char.isDigit
            if appId.isEmpty then none
            else if r3.drop appId.length = (" ]").data then some (pid, pkg, appId)
            else none

/-- `get_started_process` (`main.rs:562`): try the three Start shapes in
source order and normalise the captures into
`(pid, uid, gids, package, target)`. -/
def getStartedProcess (line : Str) : Option (Str × Str × Str × Str × Str) :=
  match (startSplits ((": Start proc ").data) line).findSome? pidStartTail with
  | some (pid, pkg, target) => some (pid, [], [], pkg, target)
  | none =>
    match (startSplits ((": Start proc ").data) line).findSome? pidStartUgidTail with
    | some r => some r
    | none =>
      match pidStartDalvikCaptures line with
      | some (pid, pkg, appId) => some (pid, appId, [], pkg, [])
      | none => none

/-- `is_matching_package` (`main.rs:640`). -/
def isMatchingPackage (token : Str) (named catchall : List Str) : Bool :=
  if catchall.isEmpty && named.isEmpty then true
  else if named.contains token then true
  else
    match token.indexOf? ':' with
    | none => catchall.contains token
    | some i => catchall.contains (token.take i)

/-- `get_dead_process` (`main.rs:596`): only under the
`"ActivityManager"` tag, try the kill / no-longer-want / has-died shapes
in order; each hit must name an interesting package and a pid present in
`pidsSet`. -/
def getDeadProcess (tag msg : Str) (pidsSet : List Str)
    (named catchall : List Str) : Option (Str × Str) :=
  if tag ≠ ("ActivityManager").data then none
  else
    let tryKill :=
      match pidKillCaptures msg with
      | some (pid, pkg) =>
        if isMatchingPackage pkg named catchall && pidsSet.contains pid then
          some (pid, pkg)
        else none
      | none => none
    match tryKill with
    | some r => some r
    | none =>
      let tryLeave :=
        match pidLeaveCaptures msg with
        | some (pkg, pid) =>
          if isMatchingPackage pkg named catchall && pidsSet.contains pid then
            some (pid, pkg)
          else none
        | none => none
      match tryLeave with
      | some r => some r
      | none =>
        match pidDeathCaptures msg with
        | some (pkg, pid) =>
          if isMatchingPackage pkg named catchall && pidsSet.contains pid then
            some (pid, pkg)
          else none
        | none => none

/-- `BACKTRACE_LINE = "^#(.*?)pc\s(.*?)$"` as an `is_match` test: after a
leading `'#'`, search (over a newline-free prefix) for `"pc"` followed by
a whitespace character and a newline-free remainder. -/
def btSearch : Str → Bool
  | [] => false
  | c :: rest =>
    (match c, rest with
     | 'p', 'c' :: w :: b => isWs w && !(b.contains '\n')
     | _, _ => false)
    || (c ≠ '\n' && btSearch rest)

/-- `BACKTRACE_LINE` applied to a message. -/
def backtraceMatch : Str → Bool
  | '#' :: rest => btSearch rest
  | _ => false

/-! ## User tag filters (`is_matching_tag` and `REGEX_CACHE`)

User-supplied filter entries that look like patterns are compiled with
`Regex::new` and tested with `is_match`.  This is modelled by a small
regex abstract syntax (the subset actually expressible in tag filters:
literals, `.`, classes, grouping, alternation, `*`/`+`/`?`, `^`/`$` and
the `\d`/`\s`/`\w` escapes) with the standard match semantics; a pattern
outside the subset fails to compile, which — exactly like a pattern
`Regex::new` rejects — makes the entry a non-match.  The process-wide
`REGEX_CACHE` only memoises compilation of a pure function and is
therefore not modelled. -/

/-- Regex abstract syntax. -/
inductive Reg where
  | eps
  | lit (c : Char)
  | anyc
  | cls (neg : Bool) (items : List (Char × Char))
  | seq (a b : Reg)
  | alt (a b : Reg)
  | star (r : Reg)
  | bol
  | eol
  deriving DecidableEq, Repr

/-- Character-class membership (ranges are inclusive; a negated class
matches every character outside the ranges, including newline). -/
def clsMatch (neg : Bool) (items : List (Char × Char)) (c : Char) : Bool :=
  let inside := items.any fun p => p.1 ≤ c && c ≤ p.2
  if neg then !inside else inside

/-- All end positions at which `r` can match `full` starting from
position `i` (backtracking semantics; `.` refuses newline, `^`/`$` are
text anchors).  The recursion is bounded by a fuel that decreases on
every structural descent; star iterations must consume at least one
character, so `(sizeOf r + 1) * (full.length + 2)` fuel — what the
`matchEnds` wrapper supplies — always suffices. -/
def matchEndsF (full : Str) : Nat → Reg → Nat → List Nat
  | 0, _, _ => []
  | fuel + 1, reg, i =>
    match reg with
    | .eps => [i]
    | .lit c =>
      match full.get? i with
      | some d => if d = c then [i + 1] else []
      | none => []
    | .anyc =>
      match full.get? i with
      | some d => if d = '\n' then [] else [i + 1]
      | none => []
    | .cls neg items =>
      match full.get? i with
      | some d => if clsMatch neg items d then [i + 1] else []
      | none => []
    | .seq a b => (matchEndsF full fuel a i).flatMap (matchEndsF full fuel b)
    | .alt a b => matchEndsF full fuel a i ++ matchEndsF full fuel b i
    | .star r =>
      i :: ((matchEndsF full fuel r i).filter (fun j => i < j)).flatMap
        (matchEndsF full fuel (.star r))
    | .bol => if i = 0 then [i] else []
    | .eol => if i = full.length then [i] else []

/-- Structural size of a regex (for the fuel computation). -/
def regSize : Reg → Nat
  | .eps => 1
  | .lit _ => 1
  | .anyc => 1
  | .cls _ _ => 1
  | .seq a b => regSize a + regSize b + 1
  | .alt a b => regSize a + regSize b + 1
  | .star r => regSize r + 1
  | .bol => 1
  | .eol => 1

/-- The fuel supplied to `matchEndsF`. -/
def matchFuel (r : Reg) (full : Str) : Nat := (regSize r + 1) * (full.length + 2)

/-- End positions of matches of `r` in `full` starting at `i`. -/
def matchEnds (full : Str) (r : Reg) (i : Nat) : List Nat :=
  matchEndsF full (matchFuel r full) r i

/-- `Regex::is_match`: the pattern matches starting at some position. -/
def regexIsMatch (r : Reg) (s : Str) : Bool :=
  (List.range (s.length + 1)).any fun i => !(matchEnds s r i).isEmpty

/-- Class body parser (after `[` and the optional `^`): ranges `a-b`,
escapes, and a `-` immediately before `]` taken literally. -/
def clsItems : Str → List (Char × Char) → Option (List (Char × Char) × Str)
  | ']' :: r, acc => some (acc.reverse, r)
  | '\\' :: c :: r, acc => clsItems r ((c, c) :: acc)
  | a :: '-' :: b :: r, acc =>
    if b = ']' then some ((('-', '-') :: (a, a) :: acc).reverse, r)
    else clsItems r ((a, b) :: acc)
  | c :: r, acc => clsItems r ((c, c) :: acc)
  | [], _ => none

/-- `\d`, `\s`, `\w` as classes. -/
def escClass : Char → Option Reg
  | 'd' => some (.cls false [('0', '9')])
  | 's' => some (.cls false [(' ', ' '), ('\t', '\t'), ('\n', '\n'), ('\r', '\r'), ('\x0b', '\x0b'), ('\x0c', '\x0c')])
  | 'w' => some (.cls false [('a', 'z'), ('A', 'Z'), ('0', '9'), ('_', '_')])
  | _ => none

mutual

/-- Alternation level of the pattern grammar (fuel-bounded recursive
descent; the initial fuel always suffices for the patterns compiled). -/
def parseAlt : Nat → Str → Option (Reg × Str)
  | 0, _ => none
  | fuel + 1, s =>
    match parseConcat fuel s with
    | none => none
    | some (r1, rest) =>
      match rest with
      | '|' :: r2 =>
        match parseAlt fuel r2 with
        | some (r2', rest') => some (.alt r1 r2', rest')
        | none => none
      | _ => some (r1, rest)

/-- Concatenation level: a sequence of repeated atoms, ending at `|`,
`)` or the end of the pattern; built right-nested so a leading `^`
yields a `Reg.seq Reg.bol _` shape. -/
def parseConcat : Nat → Str → Option (Reg × Str)
  | 0, _ => none
  | fuel + 1, s =>
    match s with
    | [] => some (.eps, [])
    | '|' :: _ => some (.eps, s)
    | ')' :: _ => some (.eps, s)
    | _ =>
      match parseRepeat fuel s with
      | none => none
      | some (r1, rest) =>
        match parseConcat fuel rest with
        | some (r2, rest') => some (.seq r1 r2, rest')
        | none => none

/-- An atom with an optional `*`/`+`/`?` postfix (a postfix on an
anchor is rejected, as `Regex::new` rejects a repeated assertion). -/
def parseRepeat : Nat → Str → Option (Reg × Str)
  | 0, _ => none
  | fuel + 1, s =>
    match parseAtom fuel s with
    | none => none
    | some (a, rest) =>
      let isAssertion := a = Reg.bol || a = Reg.eol
      match rest with
      | '*' :: r => if isAssertion then none else some (.star a, r)
      | '+' :: r => if isAssertion then none else some (.seq a (.star a), r)
      | '?' :: r => if isAssertion then none else some (.alt a .eps, r)
      | _ => some (a, rest)

/-- Atoms: groups, classes, `.`, anchors, escapes, ordinary characters. -/
def parseAtom : Nat → Str → Option (Reg × Str)
  | 0, _ => none
  | fuel + 1, s =>
    match s with
    | '(' :: '?' :: ':' :: r =>
      match parseAlt fuel r with
      | some (g, ')' :: rest) => some (g, rest)
      | _ => none
    | '(' :: '?' :: _ => none
    | '(' :: r =>
      match parseAlt fuel r with
      | some (g, ')' :: rest) => some (g, rest)
      | _ => none
    | '[' :: '^' :: r =>
      match clsItems r [] with
      | some (items, rest) => some (.cls true items, rest)
      | none => none
    | '[' :: r =>
      match clsItems r [] with
      | some (items, rest) => some (.cls false items, rest)
      | none => none
    | '.' :: r => some (.anyc, r)
    | '^' :: r => some (.bol, r)
    | '$' :: r => some (.eol, r)
    | '\\' :: c :: r =>
      match escClass c with
      | some k => some (k, r)
      | none => some (.lit c, r)
    | c :: r =>
      if c = '*' || c = '+' || c = '?' || c = '|' || c = ')' || c = '\x7b' || c = '\x7d' then none
      else some (.lit c, r)
    | [] => none

end

/-- Compile a pattern string (the model of `Regex::new(..).ok()`). -/
def compilePattern (p : Str) : Option Reg :=
  match parseAlt (4 * p.length + 16) p with
  | some (r, []) => some r
  | _ => none

/-- The metacharacter probe string of `is_matching_tag`:
`".*+?[]{}()|\^$"`. -/
def regexMetaChars : Str := (".*+?[]\x7b\x7d()|\\^$").data

/-- Does a filter entry look like a pattern? -/
def isRegexEntry (m : Str) : Bool := m.any fun c => regexMetaChars.contains c

/-- Prepend `'^'` unless the entry already starts with it. -/
def caretPattern (m : Str) : Str := if startsWithL m ['^'] then m else '^' :: m

/-- `is_matching_tag` (`main.rs:659`): each entry is trimmed; entries
with a metacharacter are compiled (with the caret prepended) and tested
by unanchored search, a failed compilation being a non-match; literal
entries match as substrings. -/
def isMatchingTag (tag : Str) (tags : List Str) : Bool :=
  tags.any fun t0 =>
    let m := trim t0
    if isRegexEntry m then
      match compilePattern (caretPattern m) with
      | some r => regexIsMatch r tag
      | none => false
    else containsSeq tag m

/-! ## Writers, CLI configuration, and the rendering pipeline

A `Writer` keeps its dynamic width and color flag; the text written by a
`write`+`flush` pair is collected into a transcript (the I/O itself is
the out-of-scope sink).  `get_console_width` is an external query,
passed in as the parameter `cw`.  Rust panics in the pipeline
(`LogLevel::from` on an unknown letter, `usize` underflow and the
`String::truncate` char-boundary check in the column writers, `u8`
overflow in the header-width sum) are modelled by `Option`. -/

/-- `pidcat::Writer` (observable fields). -/
structure Writer where
  width : Int
  showColors : Bool
  deriving DecidableEq, Repr

/-- The relevant fields of `pidcat::CliArgs` (widths are `u8` values). -/
structure CliArgs where
  all : Bool
  show_pid : Bool
  show_package : Bool
  always_show_tags : Bool
  gc_color : Bool
  no_color : Bool
  pid_width : Nat
  package_width : Nat
  tag_width : Nat
  ignore_tag : Option (List Str)
  tag : Option (List Str)
  deriving DecidableEq, Repr

/-- `write_token` for one writer: wrap-eligible writers refresh their
width from the console and wrap; color-less writers strip before
writing.  Returns the updated writer and the text written. -/
def writeTokenW (token : Str) (w : Writer) (wrap : Bool) (headerWidth : Nat)
    (fg bg : Color) (cw : Int) : Writer × Str :=
  if wrap && w.width ≠ -1 then
    let w' := { w with width := cw }
    let buffer := getWrappedIndent token w.showColors cw headerWidth fg bg
    (w', if w.showColors then buffer else stripAnsi buffer)
  else
    (w, if w.showColors then token else stripAnsi token)

/-- `write_token` over all writers; the transcript lists each writer's
output in order. -/
def writeToken (token : Str) (ws : List Writer) (wrap : Bool) (headerWidth : Nat)
    (fg bg : Color) (cw : Int) : List Writer × List Str :=
  match ws with
  | [] => ([], [])
  | w :: t =>
    let p := writeTokenW token w wrap headerWidth fg bg cw
    let q := writeToken token t wrap headerWidth fg bg cw
    (p.1 :: q.1, p.2 :: q.2)

/-- `write_started_process` (`main.rs:732`): on a Start match whose
package is interesting, record the pid, set `app_pid`, emit the green
banner, clear `last_tag` and report `true`; otherwise change nothing. -/
def writeStartedProcess (line : Str) (st : State) (ws : List Writer)
    (headerWidth : Nat) (cw : Int) : Bool × State × List Writer × List Str :=
  let spaces0 := spacesN (headerWidth - 1)
  match getStartedProcess line with
  | none => (false, st, ws, [])
  | some (pid, uid, gids, pkg, target) =>
    let spaces := colorizeFgBg .Green .Green spaces0
    let startedMsg :=
      (" Process ").data ++ colorizeFg .Yellow pkg ++ (" created for ").data ++
        colorizeFg .Yellow target ++ ['\n']
    let pugidMsg :=
      (" PID: ").data ++ colorizeFg .Yellow pid ++ ("   UID: ").data ++
        colorizeFg .Yellow uid ++ ("   GIDs: ").data ++ colorizeFg .Yellow gids
    if isMatchingPackage pkg st.named_processes st.catchall_package then
      let st1 := { st with
        pids_map := insertA pid pkg st.pids_map
        app_pid := some pid }
      let s1 := writeToken spaces ws false headerWidth .Green .Green cw
      let s2 := writeToken ['\n'] s1.1 false headerWidth .Green .Green cw
      let s3 := writeToken spaces s2.1 false headerWidth .Green .Green cw
      let s4 := writeToken startedMsg s3.1 true headerWidth .Green .Green cw
      let s5 := writeToken spaces s4.1 false headerWidth .Green .Green cw
      let s6 := writeToken pugidMsg s5.1 true headerWidth .Green .Green cw
      let s7 := writeToken ['\n'] s6.1 false headerWidth .Green .Green cw
      let s8 := writeToken spaces s7.1 false headerWidth .Green .Green cw
      let s9 := writeToken ['\n'] s8.1 false headerWidth .Green .Green cw
      let st2 := { st1 with last_tag := none }
      (true, st2, s9.1,
        s1.2 ++ s2.2 ++ s3.2 ++ s4.2 ++ s5.2 ++ s6.2 ++ s7.2 ++ s8.2 ++ s9.2)
    else (false, st, ws, [])

/-- `write_dead_process` (`main.rs:861`): on a Death match, remove the
pid from `pids_map`, emit the red banner, clear `last_tag` and report
`true`; otherwise change nothing. -/
def writeDeadProcess (tag message : Str) (st : State) (ws : List Writer)
    (headerWidth : Nat) (cw : Int) : Bool × State × List Writer × List Str :=
  let spaces0 := spacesN (headerWidth - 1)
  match getDeadProcess tag message (keysA st.pids_map)
      st.named_processes st.catchall_package with
  | none => (false, st, ws, [])
  | some (deadPid, deadName) =>
    let spaces := colorizeFgBg .Red .Red spaces0
    let deadMsg :=
      (" Process ").data ++ colorizeFg .Yellow deadName ++ (" (PID: ").data ++
        colorizeFg .Yellow deadPid ++ (") ended").data ++ ['\n']
    let st1 :=
      if containsA st.pids_map deadPid then
        { st with pids_map := eraseA deadPid st.pids_map }
      else st
    let s1 := writeToken spaces ws false headerWidth .Red .Red cw
    let s2 := writeToken ['\n'] s1.1 false headerWidth .Red .Red cw
    let s3 := writeToken spaces s2.1 false headerWidth .Red .Red cw
    let s4 := writeToken deadMsg s3.1 true headerWidth .Red .Red cw
    let s5 := writeToken spaces s4.1 false headerWidth .Red .Red cw
    let s6 := writeToken ['\n'] s5.1 false headerWidth .Red .Red cw
    let st2 := { st1 with last_tag := none }
    (true, st2, s6.1, s1.2 ++ s2.2 ++ s3.2 ++ s4.2 ++ s5.2 ++ s6.2)

/-- The unicode ellipsis and its character count. -/
def ellipsisStr : Str := ['…']

/-- Truncate-with-ellipsis as the column writers perform it: a byte-length
comparison, a checked `usize` subtraction and a byte-position
`String::truncate` (both of which can panic). -/
def truncateDisplay (value : Str) (width : Nat) : Option Str :=
  if width < utf8Len value then
    match checkedSub width ellipsisStr.length with
    | none => none
    | some k =>
      match truncBytes value k with
      | none => none
      | some t => some (t ++ ellipsisStr)
  else some value

/-- `write_pid` (`main.rs:937`). -/
def writePid (st : State) (args : CliArgs) (ws : List Writer) (headerWidth : Nat)
    (owner : Str) (fg bg : Color) (cw : Int) :
    Option (State × List Writer × Nat × List Str) :=
  let pidWidth := args.pid_width
  if args.show_pid && !owner.isEmpty then
    let p := getTokenColor owner st
    match truncateDisplay owner pidWidth with
    | none => none
    | some displayOwner =>
      let pidDisplay := padRight displayOwner pidWidth
      let pidDisplay := if args.no_color then pidDisplay else colorizeFg p.1 pidDisplay
      let s1 := writeToken pidDisplay ws false headerWidth fg bg cw
      let s2 := writeToken [' '] s1.1 false headerWidth fg bg cw
      some (p.2, s2.1, headerWidth + pidWidth + 1, s1.2 ++ s2.2)
  else some (st, ws, headerWidth, [])

/-- `write_package_name` (`main.rs:984`). -/
def writePackageName (owner : Str) (args : CliArgs) (st : State)
    (ws : List Writer) (headerWidth : Nat) (fg bg : Color) (cw : Int) :
    Option (State × List Writer × Nat × List Str) :=
  let packageWidth := args.package_width
  if args.show_package && !owner.isEmpty then
    let packageName :=
      (lookupA st.pids_map owner).getD (("UNKNOWN(").data ++ owner ++ [')'])
    let p := getTokenColor packageName st
    match truncateDisplay packageName packageWidth with
    | none => none
    | some displayPkg =>
      let pkgDisplay := padRight displayPkg packageWidth
      let pkgDisplay := if args.no_color then pkgDisplay else colorizeFg p.1 pkgDisplay
      let s1 := writeToken pkgDisplay ws false headerWidth fg bg cw
      let s2 := writeToken [' '] s1.1 false headerWidth fg bg cw
      some (p.2, s2.1, headerWidth + packageWidth + 1, s1.2 ++ s2.2)
  else some (st, ws, headerWidth, [])

/-- `write_tag` (`main.rs:1036`): when the tag column is enabled, render
the tag if it differs from `last_tag` (or always-show is set), otherwise
a blank field of the same width; `last_tag` is updated on render. -/
def writeTag (tag : Str) (args : CliArgs) (st : State) (ws : List Writer)
    (headerWidth : Nat) (fg bg : Color) (cw : Int) :
    Option (State × List Writer × Nat × List Str) :=
  let tagWidth := args.tag_width
  if 0 < tagWidth then
    if some tag ≠ st.last_tag || args.always_show_tags then
      let st := { st with last_tag := some tag }
      match truncateDisplay tag tagWidth with
      | none => none
      | some displayTag =>
        let p := getTokenColor tag st
        let tagDisplay :=
          if args.show_pid || args.show_package then padLeft displayTag tagWidth
          else padRight displayTag tagWidth
        let tagDisplay := if args.no_color then tagDisplay else colorizeFg p.1 tagDisplay
        let s1 := writeToken tagDisplay ws false headerWidth fg bg cw
        let s2 := writeToken [' '] s1.1 false headerWidth fg bg cw
        some (p.2, s2.1, headerWidth + tagWidth + 1, s1.2 ++ s2.2)
    else
      let s1 := writeToken (spacesN tagWidth) ws false headerWidth fg bg cw
      let s2 := writeToken [' '] s1.1 false headerWidth fg bg cw
      some (st, s2.1, headerWidth + tagWidth + 1, s1.2 ++ s2.2)
  else some (st, ws, headerWidth, [])

/-- `write_log_level` (`main.rs:1101`): the ` L ` badge and a separator
space (this writer does not advance the header width itself). -/
def writeLogLevel (level : LogLevel) (args : CliArgs) (ws : List Writer)
    (headerWidth : Nat) (fg bg : Color) (cw : Int) :
    List Writer × Nat × List Str :=
  let levelStr : Str := [' ', level.letter, ' ']
  let levelStr := if args.no_color then levelStr else colorizeFgBg fg bg levelStr
  let s1 := writeToken levelStr ws false headerWidth fg bg cw
  let s2 := writeToken [' '] s1.1 false headerWidth fg bg cw
  (s2.1, headerWidth, s1.2 ++ s2.2)

/-- `write_message` (`main.rs:1168`): the wrapped message and a newline. -/
def writeMessage (message : Str) (ws : List Writer) (headerWidth : Nat)
    (fg bg : Color) (cw : Int) : List Writer × List Str :=
  let s1 := writeToken message ws true headerWidth fg bg cw
  let s2 := writeToken ['\n'] s1.1 false headerWidth fg bg cw
  (s2.1, s1.2 ++ s2.2)

/-! ## In-message highlight rules (`STRICT_MODE`, `GC_COLOR`) -/

/-- `STRICT_MODE = "^(StrictMode policy violation)(; ~duration=)(\d+ ms)"`:
the three captures and the remainder after the match. -/
def strictModeCaptures (msg : Str) : Option (Str × Str × Str × Str) :=
  match stripPrefixL msg (("StrictMode policy violation").data) with
  | none => none
  | some r1 =>
    match stripPrefixL r1 (("; ~duration=").data) with
    | none => none
    | some r2 =>
      let d := r2.takeWhile Char.isDigit
      if d.isEmpty then none
      else
        match stripPrefixL (r2.drop d.length) ((" ms").data) with
        | none => none
        | some rest =>
          some (("StrictMode policy violation").data, ("; ~duration=").data,
            d ++ (" ms").data, rest)

/-- Nonempty digit prefixes of a string, longest first (the greedy
backtracking order of `\d+`). -/
def digitSplits (s : Str) : List (Str × Str) :=
  let d := s.takeWhile Char.isDigit
  (List.range d.length).map fun k => (d.take (d.length - k), s.drop (d.length - k))

/-- `\d+.`: a digit run followed by one non-newline character, in the
greedy order. -/
def digitDot (s : Str) : List (Str × Str) :=
  (digitSplits s).filterMap fun p =>
    match p.2 with
    | c :: r2 => if c = '\n' then none else some (p.1 ++ [c], r2)
    | [] => none

/-- The alternation `CONCURRENT|FOR_M?ALLOC|EXTERNAL_ALLOC|EXPLICIT`
(with the greedy `M?` expanded), in preference order. -/
def gcVariants : List Str :=
  [("CONCURRENT").data, ("FOR_MALLOC").data, ("FOR_ALLOC").data,
   ("EXTERNAL_ALLOC").data, ("EXPLICIT").data]

/-- Capture 1 of `GC_COLOR`: `(GC_(?:…) )`. -/
def pGcC1 (s : Str) : List (Str × Str) :=
  match stripPrefixL s (("GC_").data) with
  | none => []
  | some r =>
    gcVariants.filterMap fun v =>
      (stripPrefixL r (v ++ [' '])).map fun rest => (("GC_").data ++ v ++ [' '], rest)

/-- Capture 2 of `GC_COLOR`: `(freed <?\d+.)`. -/
def pGcC2 (s : Str) : List (Str × Str) :=
  match stripPrefixL s (("freed ").data) with
  | none => []
  | some r =>
    let branches : List (Str × Str) :=
      match r with
      | '<' :: r2 => [(['<'], r2), ([], '<' :: r2)]
      | _ => [([], r)]
    branches.flatMap fun p =>
      (digitDot p.2).map fun q => (("freed ").data ++ p.1 ++ q.1, q.2)

/-- Capture 3 of `GC_COLOR`: `(, \d+\% free \d+./\d+., )`. -/
def pGcC3 (s : Str) : List (Str × Str) :=
  match stripPrefixL s ((", ").data) with
  | none => []
  | some r =>
    let d1 := r.takeWhile Char.isDigit
    if d1.isEmpty then []
    else
      match stripPrefixL (r.drop d1.length) (("% free ").data) with
      | none => []
      | some r2 =>
        (digitDot r2).flatMap fun a =>
          match a.2 with
          | '/' :: r4 =>
            (digitDot r4).flatMap fun b =>
              match stripPrefixL b.2 ((", ").data) with
              | some rest =>
                [((", ").data ++ d1 ++ ("% free ").data ++ a.1 ++ ['/'] ++ b.1 ++
                    (", ").data, rest)]
              | none => []
          | _ => []

/-- Capture 4 of `GC_COLOR`: `(paused \d+ms(?:\+\d+ms)?)`. -/
def pGcC4 (s : Str) : List (Str × Str) :=
  match stripPrefixL s (("paused ").data) with
  | none => []
  | some r =>
    let d := r.takeWhile Char.isDigit
    if d.isEmpty then []
    else
      match stripPrefixL (r.drop d.length) (("ms").data) with
      | none => []
      | some r2 =>
        let base := ("paused ").data ++ d ++ ("ms").data
        let withPlus : List (Str × Str) :=
          match r2 with
          | '+' :: r3 =>
            let d2 := r3.takeWhile Char.isDigit
            if d2.isEmpty then []
            else
              match stripPrefixL (r3.drop d2.length) (("ms").data) with
              | some r4 => [(base ++ ['+'] ++ d2 ++ ("ms").data, r4)]
              | none => []
          | _ => []
        withPlus ++ [(base, r2)]

/-- `GC_COLOR` captures: the first backtracking solution. -/
def gcCaptures (msg : Str) : Option (Str × Str × Str × Str × Str) :=
  ((pGcC1 msg).flatMap fun p1 =>
    (pGcC2 p1.2).flatMap fun p2 =>
      (pGcC3 p2.2).flatMap fun p3 =>
        (pGcC4 p3.2).map fun p4 =>
          (p1.1, p2.1, p3.1, p4.1, p4.2)).head?

/-- `apply_message_rules` (`main.rs:1136`). -/
def applyMessageRules (args : CliArgs) (message : Str) : Str :=
  let message :=
    match strictModeCaptures message with
    | some (c1, c2, c3, rest) => c1 ++ colorizeFg .Red c2 ++ colorizeFg .Yellow c3 ++ rest
    | none => message
  if args.gc_color then
    match gcCaptures message with
    | some (c1, c2, c3, c4, rest) =>
      c1 ++ colorizeFg .Green c2 ++ c3 ++ colorizeFg .Yellow c4 ++ rest
    | none => message
  else message

/-! ## The per-line driver (`write_log_line`, `main.rs:1193`) -/

/-- `write_log_line`: drop noise lines, require a Record parse, then run
start/death handling, inclusion and level and tag filters, the header
columns, the level badge, the message rules and the wrapped message.
`none` models a panic (unknown level letter, or a column-writer panic);
otherwise the updated state, writers and the transcript are returned. -/
def writeLogLine (line : Str) (st : State) (args : CliArgs) (ws : List Writer)
    (cw : Int) : Option (State × List Writer × List Str) :=
  if nativeTagsMatch line then some (st, ws, [])
  else
    match logLineCaptures line with
    | none => some (st, ws, [])
    | some (levelChar, tagRaw, pidRaw, msgRaw) =>
      let owner := trim pidRaw
      let tag := trim tagRaw
      match logLevelFromStr [levelChar] with
      | none => none
      | some level =>
        let message := trim msgRaw
        let fg := Color.Black
        let bg := levelBackground level
        let hw0 := (if args.show_pid then args.pid_width else 0) +
          (if args.show_package then args.package_width else 0)
        if 255 < 2 + args.tag_width + 5 then none
        else
          let hw := hw0 + (2 + args.tag_width + 5)
          let sp := writeStartedProcess line st ws hw cw
          if sp.1 then some (sp.2.1, sp.2.2.1, sp.2.2.2)
          else
            let dp := writeDeadProcess tag message st ws hw cw
            if dp.1 then some (dp.2.1, dp.2.2.1, dp.2.2.2)
            else if !args.all && !(containsA st.pids_map owner) then some (st, ws, [])
            else if levelLt level st.log_level then some (st, ws, [])
            else if (match args.ignore_tag with
                | some its => isMatchingTag tag its
                | none => false) then some (st, ws, [])
            else if (match args.tag with
                | some ts => !(isMatchingTag tag ts)
                | none => false) then some (st, ws, [])
            else
              let message :=
                if tag = ("DEBUG").data && backtraceMatch (trimStart message) then
                  trimStart message
                else message
              match writePid st args ws 0 owner fg bg cw with
              | none => none
              | some (st3, ws3, hw3, outP) =>
                match writePackageName owner args st3 ws3 hw3 fg bg cw with
                | none => none
                | some (st4, ws4, hw4, outK) =>
                  match writeTag tag args st4 ws4 hw4 fg bg cw with
                  | none => none
                  | some (st5, ws5, hw5, outT) =>
                    let s6 := writeLogLevel level args ws5 hw5 fg bg cw
                    let hw7 := s6.2.1 + 5
                    let message := applyMessageRules args message
                    let s7 := writeMessage message s6.1 hw7 fg bg cw
                    some (st5, s7.1, outP ++ outK ++ outT ++ s6.2.2 ++ s7.2)

/-! ## Startup constants (`main`, `main.rs:1515`) -/

/-- The six-color recency palette `tag_colors`. -/
def tagColors : List Color :=
  [.BrightRed, .BrightBlue, .BrightCyan, .BrightGreen, .BrightYellow, .BrightMagenta]

/-- The pre-seeded `known_tags` memo. -/
def knownTags : List (Str × Color) :=
  [(("jdwp").data, .White),
   (("DEBUG").data, .Yellow),
   (("Process").data, .White),
   (("dalvikvm").data, .White),
   (("StrictMode").data, .White),
   (("AndroidRuntime").data, .Cyan),
   (("ActivityThread").data, .White),
   (("ActivityManager").data, .White)]

/-- The session state built in `main` from an initial pid snapshot,
threshold and interest lists. -/
def initState (pids : List (Str × Str)) (lvl : LogLevel)
    (named catchall : List Str) : State :=
  { pids_map := pids
    last_tag := none
    app_pid := none
    log_level := lvl
    named_processes := named
    catchall_package := catchall
    token_colors := tagColors
    known_tokens := knownTags }

/-- The default CLI configuration with no packages given (`main` then
sets `all`): columns off except the tag column, whose default width is
20; threshold VERBOSE. -/
def defaultArgs : CliArgs :=
  { all := true
    show_pid := false
    show_package := false
    always_show_tags := false
    gc_color := false
    no_color := false
    pid_width := 5
    package_width := 20
    tag_width := 20
    ignore_tag := none
    tag := none }


/-! ## Supporting lemmas -/

theorem stripRun_true_cons (c : Char) (cs : Str) :
    stripRun true (c :: cs) =
      if c.isAlpha then stripRun false cs else stripRun true cs := rfl

theorem stripRun_esc (rest : Str) :
    stripRun false ('\x1b' :: '[' :: rest) = stripRun true rest := rfl

theorem stripRun_false_cons (c : Char) (rest : Str)
    (h : c = '\x1b' → rest.head? ≠ some '[') :
    stripRun false (c :: rest) = c :: stripRun false rest := by
  rw [stripRun.eq_def]
  split
  · simp_all
  · simp_all
  · simp_all
  · rename_i heq
    injection heq with h1 h2
    exact absurd (by rw [h2]; rfl) (h h1)
  · rename_i heq
    injection heq with h1 h2
    rw [← h1, ← h2]

theorem tabExpand_cons_ne_tab {c : Char} (hc : c ≠ '\t') (cs : Str) :
    tabExpand (c :: cs) = c :: tabExpand cs := by
  simp [tabExpand, hc]

theorem tabExpand_cons_tab (cs : Str) :
    tabExpand ('\t' :: cs) = ' ' :: ' ' :: ' ' :: ' ' :: tabExpand cs := by
  simp [tabExpand]

theorem tabExpand_head_bracket (rest : Str) (h : (tabExpand rest).head? = some '[') :
    rest.head? = some '[' := by
  cases rest with
  | nil => simp [tabExpand] at h
  | cons d t =>
    by_cases hd : d = '\t'
    · subst hd
      rw [tabExpand_cons_tab] at h
      simp at h
    · rw [tabExpand_cons_ne_tab hd] at h
      simpa using h

theorem stripRun_tabExpand : ∀ (b : Bool) (l : Str),
    stripRun b (tabExpand l) = tabExpand (stripRun b l) := by
  intro b l
  induction b, l using stripRun.induct with
  | case1 => rfl
  | case2 c cs ha ih =>
    have hc : c ≠ '\t' := fun hh => by rw [hh] at ha; exact absurd ha (by decide)
    rw [tabExpand_cons_ne_tab hc, stripRun_true_cons, stripRun_true_cons,
      if_pos ha, if_pos ha]
    exact ih
  | case3 c cs ha ih =>
    by_cases hc : c = '\t'
    · subst hc
      rw [tabExpand_cons_tab]
      show stripRun true (tabExpand cs) = tabExpand (stripRun true cs)
      exact ih
    · rw [tabExpand_cons_ne_tab hc, stripRun_true_cons, stripRun_true_cons,
        if_neg ha, if_neg ha]
      exact ih
  | case4 => rfl
  | case5 rest ih =>
    rw [tabExpand_cons_ne_tab (by decide), tabExpand_cons_ne_tab (by decide)]
    rw [stripRun_esc, stripRun_esc]
    exact ih
  | case6 c cs hne ih =>
    have hcs : ∀ hcon : cs.head? = some '[', c = '\x1b' → False := by
      intro hcon he
      cases cs with
      | nil => simp at hcon
      | cons d t =>
        simp at hcon
        exact hne t he (by rw [hcon])
    by_cases hc : c = '\t'
    · subst hc
      rw [tabExpand_cons_tab]
      rw [stripRun_false_cons ' ' _ (by intro hsp; exact absurd hsp (by decide))]
      rw [stripRun_false_cons ' ' _ (by intro hsp; exact absurd hsp (by decide))]
      rw [stripRun_false_cons ' ' _ (by intro hsp; exact absurd hsp (by decide))]
      rw [stripRun_false_cons ' ' _ (by intro hsp; exact absurd hsp (by decide))]
      rw [ih]
      rw [stripRun_false_cons '\t' _ (by intro hsp; exact absurd hsp (by decide))]
      rw [tabExpand_cons_tab]
    · rw [tabExpand_cons_ne_tab hc]
      rw [stripRun_false_cons c _
        (fun he hcon => hcs (tabExpand_head_bracket cs hcon) he)]
      rw [ih]
      rw [stripRun_false_cons c _ (fun he hcon => hcs hcon he)]
      rw [tabExpand_cons_ne_tab hc]

theorem stripAnsi_tabExpand (l : Str) :
    stripAnsi (tabExpand l) = tabExpand (stripAnsi l) := stripRun_tabExpand false l

theorem stripRun_sublist : ∀ (b : Bool) (l : Str), List.Sublist (stripRun b l) l := by
  intro b l
  induction b, l using stripRun.induct with
  | case1 => simp [stripRun]
  | case2 c cs ha ih =>
    rw [stripRun_true_cons, if_pos ha]
    exact ih.trans (List.sublist_cons_self c cs)
  | case3 c cs ha ih =>
    rw [stripRun_true_cons, if_neg ha]
    exact ih.trans (List.sublist_cons_self c cs)
  | case4 => simp [stripRun]
  | case5 rest ih =>
    rw [stripRun_esc]
    exact ((ih.trans (List.sublist_cons_self '[' rest)).trans
      (List.sublist_cons_self '\x1b' _))
  | case6 c cs hne ih =>
    have hcs : ∀ hcon : cs.head? = some '[', c = '\x1b' → False := by
      intro hcon he
      cases cs with
      | nil => simp at hcon
      | cons d t =>
        simp at hcon
        exact hne t he (by rw [hcon])
    rw [stripRun_false_cons c _ (fun he hcon => hcs hcon he)]
    exact ih.cons₂ c

theorem stripAnsi_sublist (l : Str) : List.Sublist (stripAnsi l) l := stripRun_sublist false l

theorem tabExpand_sublist : ∀ {u v : Str}, List.Sublist u v →
    List.Sublist (tabExpand u) (tabExpand v)
  | _, _, List.Sublist.slnil => by simp [tabExpand]
  | _, _, List.Sublist.cons a h => by
    have ih := tabExpand_sublist h
    by_cases ha : a = '\t'
    · subst ha
      rw [tabExpand_cons_tab]
      exact ih.trans ((((List.sublist_cons_self ' ' _).trans
        (List.sublist_cons_self ' ' _)).trans
        (List.sublist_cons_self ' ' _)).trans (List.sublist_cons_self ' ' _))
    · rw [tabExpand_cons_ne_tab ha]
      exact ih.trans (List.sublist_cons_self a _)
  | _, _, List.Sublist.cons₂ a h => by
    have ih := tabExpand_sublist h
    by_cases ha : a = '\t'
    · subst ha
      rw [tabExpand_cons_tab, tabExpand_cons_tab]
      exact ((ih.cons₂ ' ').cons₂ ' ' |>.cons₂ ' ' |>.cons₂ ' ')
    · rw [tabExpand_cons_ne_tab ha, tabExpand_cons_ne_tab ha]
      exact ih.cons₂ a

/-! ## Claim-level constants -/

/-- The interactive console writer built in `main` (width 80, colors on). -/
def consoleW : Writer := { width := 80, showColors := true }

/-- The session state of a default run: empty snapshot, threshold
VERBOSE, no interest filters (so every package is interesting). -/
def stDefault : State := initState [] .VERBOSE [] []

/-- A line matching the generic Start shape but not the Record shape
(its first character is lowercase, so `LOG_LINE` rejects it). -/
def startNonRecordLine : Str :=
  ("foo: Start proc 123:com.app/u0a1 for activity \x7bcom.app/.Main\x7d").data

/-! ## Branch lemmas for the wrapper -/

theorem getWrappedIndent_unbounded (s : Str) (sc : Bool) (hw : Nat) (fg bg : Color) :
    getWrappedIndent s sc (-1) hw fg bg = s := by
  simp [getWrappedIndent]

theorem getWrappedIndent_no_wrap (s : Str) (sc : Bool) (w : Int) (hw : Nat)
    (fg bg : Color) (hne : w ≠ -1)
    (h : usizeOfI16 w - hw = 0 ∨ (stripAnsi (tabExpand s)).length ≤ usizeOfI16 w - hw) :
    getWrappedIndent s sc w hw fg bg = tabExpand s := by
  unfold getWrappedIndent
  rw [if_neg hne]
  by_cases hz : usizeOfI16 w - hw = 0
  · simp [hz]
  · have hf := h.resolve_left hz
    simp [hz, hf]

/-! ## C7 -/

/-- C7 (corrected): the wrapper returns its input with tabs expanded to
four spaces — not the input itself — when the width is the unbounded
sentinel the input is returned verbatim; when the wrap budget is zero or
the stripped, tab-expanded text fits the budget, the tab-expanded input
is returned. -/
theorem c7_wrapper_identity_cases (s : Str) (sc : Bool) (w : Int) (hw : Nat)
    (fg bg : Color) :
    (w = -1 → getWrappedIndent s sc w hw fg bg = s) ∧
    (w ≠ -1 → usizeOfI16 w - hw = 0 → getWrappedIndent s sc w hw fg bg = tabExpand s) ∧
    (w ≠ -1 → (stripAnsi (tabExpand s)).length ≤ usizeOfI16 w - hw →
      getWrappedIndent s sc w hw fg bg = tabExpand s) :=
  ⟨fun h => h ▸ getWrappedIndent_unbounded s sc hw fg bg,
   fun hne hz => getWrappedIndent_no_wrap s sc w hw fg bg hne (Or.inl hz),
   fun hne hf => getWrappedIndent_no_wrap s sc w hw fg bg hne (Or.inr hf)⟩

/-- Witness for C7: a zero-budget call (width 5, header 10) returns the
tab-expanded text. -/
theorem c7_wrapper_identity_cases_witness :
    ((5 : Int) ≠ -1 ∧ usizeOfI16 5 - 10 = 0) ∧
    getWrappedIndent (("hi").data) false 5 10 .Black .White = tabExpand (("hi").data) :=
  ⟨⟨by decide, by decide⟩,
   (c7_wrapper_identity_cases (("hi").data) false 5 10 .Black .White).2.1
     (by decide) (by decide)⟩

/-- Counterexample for C7 as stated: with a zero wrap budget the wrapper
returns the tab-expanded text `"a    b"`, not the input `"a\tb"`. -/
theorem c7_tab_counterexample :
    getWrappedIndent (("a\tb").data) false 5 10 .Black .White ≠ (("a\tb").data) ∧
    getWrappedIndent (("a\tb").data) false 5 10 .Black .White = (("a    b").data) :=
  ⟨by decide, by decide⟩

/-! ## C5 -/

/-- Counterexample for C5: once chunking occurs, the wrapper inserts
reset sequences, so wrapping the stripped text differs from stripping
the wrapped text (here `s = "ab"`, width 1, header 0). -/
theorem c5_wrap_strip_counterexample :
    getWrappedIndent (stripAnsi (("ab").data)) false 1 0 .Black .White ≠
      stripAnsi (getWrappedIndent (("ab").data) false 1 0 .Black .White) := by
  decide

/-- C5 (corrected): color-stripping commutes with wrapping exactly in
the cases where no chunking happens — the unbounded sentinel, a zero
wrap budget, or a visible length within budget; in the chunking case the
wrapped output contains reset sequences and the identity fails. -/
theorem c5_commute_without_chunking (s : Str) (sc : Bool) (w : Int) (hw : Nat)
    (fg bg : Color)
    (h : w = -1 ∨ usizeOfI16 w - hw = 0 ∨
      (stripAnsi (tabExpand s)).length ≤ usizeOfI16 w - hw) :
    getWrappedIndent (stripAnsi s) sc w hw fg bg =
      stripAnsi (getWrappedIndent s sc w hw fg bg) := by
  by_cases hne : w = -1
  · subst hne
    rw [getWrappedIndent_unbounded, getWrappedIndent_unbounded]
  · have h2 : usizeOfI16 w - hw = 0 ∨
        (stripAnsi (tabExpand s)).length ≤ usizeOfI16 w - hw := by
      rcases h with h1 | h2 | h3
      · exact absurd h1 hne
      · exact Or.inl h2
      · exact Or.inr h3
    have hls : usizeOfI16 w - hw = 0 ∨
        (stripAnsi (tabExpand (stripAnsi s))).length ≤ usizeOfI16 w - hw := by
      rcases h2 with h2 | h3
      · exact Or.inl h2
      · refine Or.inr ?_
        rw [stripAnsi_tabExpand]
        have h4 := (tabExpand_sublist (stripAnsi_sublist (stripAnsi s))).length_le
        rw [stripAnsi_tabExpand] at h3
        omega
    rw [getWrappedIndent_no_wrap _ _ _ _ _ _ hne hls,
      getWrappedIndent_no_wrap _ _ _ _ _ _ hne h2]
    exact (stripAnsi_tabExpand s).symm

/-- Witness for C5: the commuting identity at the unbounded width. -/
theorem c5_commute_without_chunking_witness :
    ((-1 : Int) = -1 ∨ usizeOfI16 (-1) - 3 = 0 ∨
      (stripAnsi (tabExpand (("x").data))).length ≤ usizeOfI16 (-1) - 3) ∧
    getWrappedIndent (stripAnsi (("x").data)) true (-1) 3 .Black .White =
      stripAnsi (getWrappedIndent (("x").data) true (-1) 3 .Black .White) :=
  ⟨Or.inl rfl,
   c5_commute_without_chunking (("x").data) true (-1) 3 .Black .White (Or.inl rfl)⟩

/-! ## C1 -/

/-- C1 (corrected): a line that does not parse as a Record is dropped by
the per-line driver before Start/Death handling — the state is unchanged
and nothing is emitted, even if the line matches a Start or Death shape. -/
theorem c1_nonrecord_line_dropped (line : Str) (st : State) (args : CliArgs)
    (ws : List Writer) (cw : Int) (h : logLineCaptures line = none) :
    writeLogLine line st args ws cw = some (st, ws, []) := by
  unfold writeLogLine
  by_cases hn : nativeTagsMatch line
  · simp [hn]
  · simp [hn, h]

/-- Witness for C1: the Start-shaped non-Record line is dropped. -/
theorem c1_nonrecord_line_dropped_witness :
    logLineCaptures startNonRecordLine = none ∧
    writeLogLine startNonRecordLine stDefault defaultArgs [consoleW] 80 =
      some (stDefault, [consoleW], []) :=
  ⟨by decide,
   c1_nonrecord_line_dropped startNonRecordLine stDefault defaultArgs [consoleW] 80
     (by decide)⟩

/-- Counterexample for C1 as stated: this line matches the generic Start
shape with an interesting package, yet the driver emits no banner and
leaves the owner map unchanged, because the Record parse failed. -/
theorem c1_start_shape_still_dropped_counterexample :
    getStartedProcess startNonRecordLine =
      some ((("123").data, [], [], ("com.app").data, ("com.app/.Main").data)) ∧
    isMatchingPackage (("com.app").data) stDefault.named_processes
      stDefault.catchall_package = true ∧
    writeLogLine startNonRecordLine stDefault defaultArgs [consoleW] 80 =
      some (stDefault, [consoleW], []) :=
  ⟨by decide, by decide, by decide⟩

/-! ## C3 -/

/-- C3 (code bug): the Record shape accepts any uppercase level letter,
but `LogLevel::from` panics on letters outside V/D/I/W/E/F; the line
`"A/Tag(  1): msg"` parses as a Record and then panics (modelled as
`none`) instead of being classified or rejected normally. -/
theorem c3_unknown_level_letter_panics :
    logLevelFromStr (("A").data) = none ∧
    (logLineCaptures (("A/Tag(  1): msg").data)).isSome = true ∧
    writeLogLine (("A/Tag(  1): msg").data) stDefault defaultArgs [consoleW] 80 = none :=
  ⟨by decide, by decide, by decide⟩

/-! ## C4 -/

/-- C4 (code bug): column truncation panics instead of degrading — a pid
column of width 0 underflows `pid_width - ELLIPSIS_COUNT`, and a tag
column of width 2 byte-truncates the multi-byte tag `"ééé"` inside a
character (`String::truncate` panics off a char boundary); both runs of
the driver end in a panic (modelled as `none`). -/
theorem c4_truncation_panics :
    writeLogLine (("I/Tag(  7): m").data) stDefault
      { defaultArgs with show_pid := true, pid_width := 0 } [consoleW] 80 = none ∧
    writeLogLine (("I/ééé(  7): m").data) stDefault
      { defaultArgs with tag_width := 2 } [consoleW] 80 = none :=
  ⟨by decide, by decide⟩

/-! ## C2 and C9: the color table -/

theorem lookupA_insertA {α : Type} (k : Str) (v : α) (m : List (Str × α)) :
    lookupA (insertA k v m) k = some v := by
  simp [insertA, lookupA]

/-- Remove the first occurrence of a color from the palette. -/
def eraseFirstColor : List Color → Color → List Color
  | [], _ => []
  | x :: t, c => if x = c then t else x :: eraseFirstColor t c

theorem eraseFirstColor_of_none (l : List Color) (c : Color) (h : firstIdx l c = none) :
    eraseFirstColor l c = l := by
  induction l with
  | nil => rfl
  | cons x t ih =>
    rw [firstIdx] at h
    by_cases hx : x = c
    · rw [if_pos hx] at h
      exact absurd h (by simp)
    · rw [if_neg hx] at h
      rw [eraseFirstColor, if_neg hx]
      cases h2 : firstIdx t c with
      | none => rw [ih h2]
      | some p => rw [h2] at h; simp at h

theorem eraseFirstColor_of_some (l : List Color) (c : Color) (pos : Nat)
    (h : firstIdx l c = some pos) : l.eraseIdx pos = eraseFirstColor l c := by
  induction l generalizing pos with
  | nil => simp [firstIdx] at h
  | cons x t ih =>
    rw [firstIdx] at h
    by_cases hx : x = c
    · rw [if_pos hx] at h
      injection h with hp
      rw [← hp]
      simp [eraseFirstColor, hx, List.eraseIdx]
    · rw [if_neg hx] at h
      cases h2 : firstIdx t c with
      | none => rw [h2] at h; simp at h
      | some p =>
        rw [h2] at h
        simp at h
        rw [← h]
        rw [show (x :: t).eraseIdx (p + 1) = x :: t.eraseIdx p from rfl]
        rw [eraseFirstColor, if_neg hx]
        rw [ih p h2]

/-- Counterexample for C2: from the initial session state, assigning a
color to the fresh token `"com.example.app"` memoises `BrightRed` yet
leaves `BrightRed` in the palette (moved to the back), so a color is
simultaneously assigned and free. -/
theorem c2_assigned_color_in_palette_counterexample :
    lookupA stDefault.known_tokens (("com.example.app").data) = none ∧
    (getTokenColor (("com.example.app").data) stDefault).1 = Color.BrightRed ∧
    lookupA (getTokenColor (("com.example.app").data) stDefault).2.known_tokens
      (("com.example.app").data) = some Color.BrightRed ∧
    Color.BrightRed ∈ (getTokenColor (("com.example.app").data) stDefault).2.token_colors :=
  ⟨by decide, by decide, by decide, by decide⟩

/-- C2 (corrected): a fresh token takes the front (least-recently-used)
color of the palette and the color is memoised but *stays in the
palette*, rotated to the back; only when the palette is empty does a
fresh token fall back to the default `White`, without being memoised and
without touching the state. -/
theorem c2_fresh_token_rotates_palette :
    (∀ (st : State) (token : Str) (c : Color) (rest : List Color),
      lookupA st.known_tokens token = none → st.token_colors = c :: rest →
      getTokenColor token st =
        (c, { st with known_tokens := insertA token c st.known_tokens,
                      token_colors := rest ++ [c] })) ∧
    (∀ (st : State) (token : Str),
      lookupA st.known_tokens token = none → st.token_colors = [] →
      getTokenColor token st = (Color.White, st)) := by
  constructor
  · intro st token c rest hmiss hpal
    unfold getTokenColor
    rw [hmiss, hpal]
    simp only [Option.isNone_none, List.headD_cons, ne_eq, reduceCtorEq,
      not_false_eq_true, if_true, if_pos]
    rw [lookupA_insertA]
    simp only [Option.getD_some]
    rw [firstIdx, if_pos rfl]
    simp [List.eraseIdx]
  · intro st token hmiss hpal
    unfold getTokenColor
    rw [hmiss, hpal]
    simp

/-- Witness for C2: the fresh token `"x"` takes `BrightRed` from the
default palette, which rotates to the back. -/
theorem c2_fresh_token_rotates_palette_witness :
    getTokenColor (("x").data) stDefault =
      (Color.BrightRed,
        { stDefault with
            known_tokens := insertA (("x").data) Color.BrightRed stDefault.known_tokens,
            token_colors :=
              [Color.BrightBlue, Color.BrightCyan, Color.BrightGreen,
               Color.BrightYellow, Color.BrightMagenta] ++ [Color.BrightRed] }) :=
  c2_fresh_token_rotates_palette.1 stDefault (("x").data) Color.BrightRed
    [Color.BrightBlue, Color.BrightCyan, Color.BrightGreen,
     Color.BrightYellow, Color.BrightMagenta] (by decide) (by decide)

/-- Counterexample for C9: looking up the pre-seeded token `"jdwp"`
returns its hand-picked `White` but *appends* `White` to the palette —
the palette is not left unchanged. -/
theorem c9_preseeded_lookup_grows_palette_counterexample :
    (getTokenColor (("jdwp").data) stDefault).1 = Color.White ∧
    (getTokenColor (("jdwp").data) stDefault).2.token_colors ≠ stDefault.token_colors ∧
    (getTokenColor (("jdwp").data) stDefault).2.token_colors =
      stDefault.token_colors ++ [Color.White] :=
  ⟨by decide, by decide, by decide⟩

/-- C9 (corrected): a lookup of any memoised token (pre-seeded ones
included) returns the memoised color and leaves the memo unchanged, but
pushes the color to the back of the palette — removing its first
occurrence if present, and appending it (growing the palette) if not. -/
theorem c9_memo_hit_moves_color_back (st : State) (token : Str) (c : Color)
    (h : lookupA st.known_tokens token = some c) :
    getTokenColor token st =
      (c, { st with token_colors := eraseFirstColor st.token_colors c ++ [c] }) := by
  unfold getTokenColor
  rw [h]
  simp only [Option.isNone_some, Bool.false_eq_true, if_false]
  rw [h]
  simp only [Option.getD_some]
  cases hidx : firstIdx st.token_colors c with
  | none =>
    rw [eraseFirstColor_of_none st.token_colors c hidx]
  | some pos =>
    rw [← eraseFirstColor_of_some st.token_colors c pos hidx]

/-- Witness for C9: the pre-seeded `"jdwp"` lookup returns `White` and
appends it to the palette (no occurrence to remove). -/
theorem c9_memo_hit_moves_color_back_witness :
    lookupA stDefault.known_tokens (("jdwp").data) = some Color.White ∧
    getTokenColor (("jdwp").data) stDefault =
      (Color.White,
        { stDefault with
            token_colors := eraseFirstColor stDefault.token_colors Color.White ++
              [Color.White] }) :=
  ⟨by decide,
   c9_memo_hit_moves_color_back stDefault (("jdwp").data) Color.White (by decide)⟩

/-! ## C8 -/

/-- Counterexample for C8 as stated: under the *actual* default
configuration the tag column is on (default `tag_width = 20`), so the
rendered Record line carries a 20-wide tag column (plus separator)
before the level badge and message — it is not prefix-free. -/
theorem c8_default_config_has_tag_column_counterexample :
    (writeLogLine (("I/MyTag( 1234): hello world").data) stDefault defaultArgs
      [consoleW] 80).map (fun r => stripAnsi r.2.2.flatten) =
      some (("MyTag                 I  hello world\n").data) ∧
    (writeLogLine (("I/MyTag( 1234): hello world").data) stDefault defaultArgs
      [consoleW] 80).map (fun r => stripAnsi r.2.2.flatten) ≠
      some (((" I  hello world\n")).data) :=
  ⟨by decide, by decide⟩

/-- C8 (corrected): with the columns actually off — `show_pid` and
`show_package` false and `tag_width` set to 0 (the default is 20) — and
threshold VERBOSE, the Record line renders as exactly one line: the
colored level badge, a space, `"hello world"` and a single trailing
newline, with no pid/package/tag column prefix. -/
theorem c8_roundtrip_with_columns_off :
    (writeLogLine (("I/MyTag( 1234): hello world").data) stDefault
      { defaultArgs with tag_width := 0 } [consoleW] 80).map (fun r => r.2.2.flatten) =
      some (colorizeFgBg Color.Black Color.BrightGreen ((" I ").data) ++ (" ").data ++
        ("hello world").data ++ ['\n']) ∧
    (writeLogLine (("I/MyTag( 1234): hello world").data) stDefault
      { defaultArgs with tag_width := 0 } [consoleW] 80).map
      (fun r => stripAnsi r.2.2.flatten) = some (((" I  hello world\n")).data) :=
  ⟨by decide, by decide⟩

/-! ## C10 -/

theorem matchEndsF_bolseq_start (full : Str) (r : Reg) :
    ∀ (f i : Nat), matchEndsF full f (Reg.seq Reg.bol r) i ≠ [] → i = 0 := by
  intro f i hne
  cases f with
  | zero => exact absurd rfl hne
  | succ f2 =>
    rw [matchEndsF] at hne
    cases f2 with
    | zero =>
      rw [matchEndsF] at hne
      simp at hne
    | succ f3 =>
      by_cases hi : i = 0
      · exact hi
      · rw [matchEndsF] at hne
        simp [hi] at hne

/-- Counterexample for C10 as stated: the entry `"a|b"` (metacharacter
`|`) is compiled as `"^a|b"`, where the caret anchors only the first
alternation branch — the tag `"zzb"` matches even though the pattern
does not match beginning at the tag's first character. -/
theorem c10_alternation_escapes_anchor_counterexample :
    isMatchingTag (("zzb").data) [("a|b").data] = true ∧
    compilePattern (caretPattern (trim (("a|b").data))) =
      some (Reg.alt (Reg.seq Reg.bol (Reg.seq (Reg.lit 'a') Reg.eps))
        (Reg.seq (Reg.lit 'b') Reg.eps)) ∧
    matchEnds (("zzb").data)
      (Reg.alt (Reg.seq Reg.bol (Reg.seq (Reg.lit 'a') Reg.eps))
        (Reg.seq (Reg.lit 'b') Reg.eps)) 0 = [] :=
  ⟨by decide, by decide, by decide⟩

/-- C10 (corrected): a literal entry (no regex metacharacter, after
trimming) matches exactly when it occurs as a substring anywhere in the
tag; an entry with a metacharacter is matched by unanchored search of
the caret-prepended pattern, and whenever that pattern compiles to a
caret-headed concatenation (no top-level alternation), a match forces a
match beginning at the tag's first character. -/
theorem c10_filter_matching_semantics :
    (∀ (tag : Str) (tags : List Str),
      (∀ e ∈ tags, isRegexEntry (trim e) = false) →
      (isMatchingTag tag tags = true ↔ ∃ e ∈ tags, containsSeq tag (trim e) = true)) ∧
    (∀ (tag e : Str) (r : Reg),
      isRegexEntry (trim e) = true →
      compilePattern (caretPattern (trim e)) = some (Reg.seq Reg.bol r) →
      isMatchingTag tag [e] = true →
      matchEnds tag (Reg.seq Reg.bol r) 0 ≠ []) := by
  constructor
  · intro tag tags hall
    unfold isMatchingTag
    rw [List.any_eq_true]
    constructor
    · rintro ⟨e, he, hb⟩
      refine ⟨e, he, ?_⟩
      simpa [hall e he] using hb
    · rintro ⟨e, he, hc⟩
      refine ⟨e, he, ?_⟩
      simpa [hall e he] using hc
  · intro tag e r hmeta hcomp hmatch
    unfold isMatchingTag at hmatch
    simp only [List.any_cons, List.any_nil, Bool.or_false] at hmatch
    rw [if_pos (by rw [hmeta])] at hmatch
    rw [hcomp] at hmatch
    unfold regexIsMatch at hmatch
    rw [List.any_eq_true] at hmatch
    rcases hmatch with ⟨i, _, hne⟩
    have hne2 : matchEnds tag (Reg.seq Reg.bol r) i ≠ [] := by
      intro hemp
      rw [hemp] at hne
      simp at hne
    have hi := matchEndsF_bolseq_start tag r _ i hne2
    rw [hi] at hne2
    exact hne2

/-- Witness for C10: the literal entry `"b"` matches the tag `"xab"` as
a substring, and the caret-headed pattern `"a.c"` for the tag `"abc"`
yields a match beginning at position 0. -/
theorem c10_filter_matching_semantics_witness :
    isMatchingTag (("xab").data) [("b").data] = true ∧
    matchEnds (("abc").data)
      (Reg.seq Reg.bol (Reg.seq (Reg.lit 'a')
        (Reg.seq Reg.anyc (Reg.seq (Reg.lit 'c') Reg.eps)))) 0 ≠ [] :=
  ⟨(c10_filter_matching_semantics.1 (("xab").data) [("b").data]
      (by decide)).mpr ⟨("b").data, by decide, by decide⟩,
   c10_filter_matching_semantics.2 (("abc").data) (("a.c").data)
     (Reg.seq (Reg.lit 'a') (Reg.seq Reg.anyc (Reg.seq (Reg.lit 'c') Reg.eps)))
     (by decide) (by decide) (by decide)⟩

/-! ## C6 -/

theorem containsA_eq_keys {α : Type} (m : List (Str × α)) (k : Str) :
    containsA m k = (keysA m).contains k := by
  induction m with
  | nil => rfl
  | cons p t ih =>
    by_cases hp : p.1 = k
    · have h1 : containsA (p :: t) k = true := by
        simp only [containsA, lookupA, if_pos hp, Option.isSome_some]
      have hb : (k == p.1) = true := beq_iff_eq.mpr hp.symm
      have h2 : (keysA (p :: t)).contains k = true := by
        simp only [keysA, List.map_cons, List.contains_cons, hb, Bool.true_or]
      rw [h1, h2]
    · have h1 : containsA (p :: t) k = containsA t k := by
        simp only [containsA, lookupA, if_neg hp]
      have hb : (k == p.1) = false := beq_eq_false_iff_ne.mpr (fun he => hp he.symm)
      have h2 : (keysA (p :: t)).contains k = (keysA t).contains k := by
        simp only [keysA, List.map_cons, List.contains_cons, hb, Bool.false_or]
      rw [h1, h2, ih]

/-- The side conditions of Death handling, stated declaratively: the
reporting tag is `"ActivityManager"`, one of the three Death patterns
captures `(pid, package)` from the message, the package is interesting,
and the pid is a tracked key. -/
def deadCondition (tag msg : Str) (pidsSet named catchall : List Str) : Prop :=
  tag = ("ActivityManager").data ∧
    ((∃ pid pkg, pidKillCaptures msg = some (pid, pkg) ∧
        isMatchingPackage pkg named catchall = true ∧ pidsSet.contains pid = true) ∨
     (∃ pkg pid, pidLeaveCaptures msg = some (pkg, pid) ∧
        isMatchingPackage pkg named catchall = true ∧ pidsSet.contains pid = true) ∨
     (∃ pkg pid, pidDeathCaptures msg = some (pkg, pid) ∧
        isMatchingPackage pkg named catchall = true ∧ pidsSet.contains pid = true))

theorem getDeadProcess_isSome_iff (tag msg : Str) (pidsSet named catchall : List Str) :
    (getDeadProcess tag msg pidsSet named catchall).isSome = true ↔
      deadCondition tag msg pidsSet named catchall := by
  unfold getDeadProcess deadCondition
  by_cases ht : tag = ("ActivityManager").data
  · rw [if_neg (by simp [ht])]
    simp only [ht, true_and]
    rcases hk : pidKillCaptures msg with _ | ⟨pk, kk⟩ <;>
    rcases hl : pidLeaveCaptures msg with _ | ⟨lp, lk⟩ <;>
    rcases hdd : pidDeathCaptures msg with _ | ⟨dp, dk⟩ <;>
    dsimp only [] <;>
    (try split_ifs) <;>
    simp_all [Bool.and_eq_true] <;>
    (first
      | exact ⟨_, _, ⟨rfl, rfl⟩, by assumption⟩
      | exact Or.inl ⟨_, _, ⟨rfl, rfl⟩, by assumption⟩
      | exact Or.inr ⟨_, _, ⟨rfl, rfl⟩, by assumption⟩
      | exact Or.inr (Or.inl ⟨_, _, ⟨rfl, rfl⟩, by assumption⟩)
      | exact Or.inr (Or.inr ⟨_, _, ⟨rfl, rfl⟩, by assumption⟩))
  · rw [if_pos (by simpa using ht)]
    simp [ht]

theorem getDeadProcess_some_contains (tag msg : Str) (pidsSet named catchall : List Str)
    (pid pkg : Str)
    (h : getDeadProcess tag msg pidsSet named catchall = some (pid, pkg)) :
    pidsSet.contains pid = true := by
  unfold getDeadProcess at h
  by_cases ht : tag = ("ActivityManager").data
  · rw [if_neg (by simp [ht])] at h
    rcases hk : pidKillCaptures msg with _ | ⟨pk, kk⟩ <;> rw [hk] at h <;>
    rcases hl : pidLeaveCaptures msg with _ | ⟨lp, lk⟩ <;> rw [hl] at h <;>
    rcases hdd : pidDeathCaptures msg with _ | ⟨dp, dk⟩ <;> rw [hdd] at h <;>
    dsimp only [] at h <;>
    (try split_ifs at h) <;>
    simp_all [Bool.and_eq_true]
  · rw [if_pos (by simpa using ht)] at h
    simp at h

/-- C6 (confirmed): Death handling returns a banner decision exactly
under the declarative side conditions; on success the pid is removed
from the owner map, `last_tag` is cleared and banner text is written;
otherwise the state is untouched and nothing is written. -/
theorem c6_death_contract (tag msg : Str) (st : State) (w : Writer) (hw : Nat) (cw : Int) :
    ((writeDeadProcess tag msg st [w] hw cw).1 = true ↔
      deadCondition tag msg (keysA st.pids_map) st.named_processes st.catchall_package) ∧
    ((writeDeadProcess tag msg st [w] hw cw).1 = true →
      ∃ pid pkg,
        getDeadProcess tag msg (keysA st.pids_map) st.named_processes
          st.catchall_package = some (pid, pkg) ∧
        (writeDeadProcess tag msg st [w] hw cw).2.1.pids_map = eraseA pid st.pids_map ∧
        (writeDeadProcess tag msg st [w] hw cw).2.1.last_tag = none ∧
        (writeDeadProcess tag msg st [w] hw cw).2.2.2 ≠ []) ∧
    ((writeDeadProcess tag msg st [w] hw cw).1 = false →
      (writeDeadProcess tag msg st [w] hw cw).2.1 = st ∧
      (writeDeadProcess tag msg st [w] hw cw).2.2.2 = []) := by
  cases hd : getDeadProcess tag msg (keysA st.pids_map) st.named_processes
      st.catchall_package with
  | none =>
    have hr : writeDeadProcess tag msg st [w] hw cw = (false, st, [w], []) := by
      unfold writeDeadProcess
      rw [hd]
    rw [hr]
    refine ⟨?_, ?_, ?_⟩
    · constructor
      · intro hfalse
        exact absurd hfalse (by simp)
      · intro hcond
        have h2 := (getDeadProcess_isSome_iff tag msg (keysA st.pids_map)
          st.named_processes st.catchall_package).mpr hcond
        rw [hd] at h2
        exact absurd h2 (by simp)
    · intro hfalse
      exact absurd hfalse (by simp)
    · intro _
      exact ⟨rfl, rfl⟩
  | some pr =>
    obtain ⟨pid, pkg⟩ := pr
    have hcont : containsA st.pids_map pid = true := by
      rw [containsA_eq_keys]
      exact getDeadProcess_some_contains tag msg (keysA st.pids_map)
        st.named_processes st.catchall_package pid pkg hd
    have hr1 : (writeDeadProcess tag msg st [w] hw cw).1 = true := by
      unfold writeDeadProcess
      rw [hd]
    have hrmap : (writeDeadProcess tag msg st [w] hw cw).2.1.pids_map =
        eraseA pid st.pids_map := by
      unfold writeDeadProcess
      rw [hd]
      simp [hcont]
    have hrtag : (writeDeadProcess tag msg st [w] hw cw).2.1.last_tag = none := by
      unfold writeDeadProcess
      rw [hd]
    have hrout : (writeDeadProcess tag msg st [w] hw cw).2.2.2 ≠ [] := by
      unfold writeDeadProcess
      rw [hd]
      simp [writeToken]
    refine ⟨?_, ?_, ?_⟩
    · constructor
      · intro _
        exact (getDeadProcess_isSome_iff tag msg (keysA st.pids_map)
          st.named_processes st.catchall_package).mp (by rw [hd]; rfl)
      · intro _
        exact hr1
    · intro _
      exact ⟨pid, pkg, rfl, hrmap, hrtag, hrout⟩
    · intro hfalse
      rw [hr1] at hfalse
      exact absurd hfalse (by simp)

/-- Session state with one tracked pid, for the C6 witness. -/
def stDeath : State :=
  initState [((("5678").data), (("com.example.app").data))] .VERBOSE [] []

/-- Witness for C6: the has-died line under `ActivityManager` with pid
`5678` tracked renders the banner and clears `last_tag`. -/
theorem c6_death_contract_witness :
    (writeDeadProcess (("ActivityManager").data)
      (("Process com.example.app (pid 5678) has died").data) stDeath [consoleW] 7 80).1 =
      true ∧
    (writeDeadProcess (("ActivityManager").data)
      (("Process com.example.app (pid 5678) has died").data) stDeath
      [consoleW] 7 80).2.1.last_tag = none := by
  have h := c6_death_contract (("ActivityManager").data)
    (("Process com.example.app (pid 5678) has died").data) stDeath consoleW 7 80
  have h1 := h.1.mpr
    ⟨rfl, Or.inr (Or.inr ⟨("com.example.app").data, ("5678").data,
      by decide, by decide, by decide⟩)⟩
  obtain ⟨pid, pkg, _, _, ht2, _⟩ := h.2.1 h1
  exact ⟨h1, ht2⟩

end Pidcat
